import Mathlib

/-!
Verification of the curseforge-autoupdater repository (Python sources) against
its natural-language specification.

The development shallowly embeds the synchronization core of the repository:

* `src/python/updater/utils.py` — `get_latest_file`, `is_download_needed`,
  `validate_mod_id`;
* `src/python/poc.py` — `get_latest_file` (server-pack preference with a
  resolver), `load_download_metadata`;
* `src/python/updater/downloader.py` — `download_file`, `load_metadata`,
  `save_metadata`, `record_download`;
* `src/python/updater/config.py` — the mod-id validation step of `get_config`.

Python dictionaries backing a `FileRecord` are embedded as a structure whose
fields are `Option`-valued exactly where the code uses `dict.get` without a
default (absence is `none`); `dict.get(key, default)` is embedded as
`Option.getD`.  Python string comparison (used by `max(..., key=...)` over
ISO-8601 `fileDate` strings) is embedded as the structural lexicographic
comparison `lexLt` over the character lists of the strings, which coincides
with Python's code-point lexicographic order.  `max` over a non-empty
sequence is embedded as a left fold that replaces the current best only on a
strictly greater key, which is exactly CPython's tie-breaking (first maximal
element wins).  File-system state is embedded as functions from file names to
optional contents, and the JSON metadata document as an inductive `JValue`
(numbers restricted to the naturals this program writes).
-/

/-- Lexicographic comparison of character lists by code point; this is the
order Python uses when comparing `fileDate` strings. -/
def lexLt : List Char → List Char → Bool
  | _, [] => false
  | [], _ :: _ => true
  | a :: as, b :: bs => if a < b then true else if b < a then false else lexLt as bs

/-- Python `a < b` on strings. -/
def strLt (a b : String) : Bool := lexLt a.data b.data

theorem lexLt_irrefl (l : List Char) : lexLt l l = false := by
  induction l with
  | nil => rfl
  | cons a as ih => simp [lexLt, lt_irrefl, ih]

theorem lexLt_trans : ∀ {a b c : List Char},
    lexLt a b = true → lexLt b c = true → lexLt a c = true := by
  intro a
  induction a with
  | nil =>
    intro b c h1 h2
    cases b with
    | nil => cases c <;> simp_all [lexLt]
    | cons x xs =>
      cases c with
      | nil => simp [lexLt] at h2
      | cons y ys => simp [lexLt]
  | cons a as ih =>
    intro b c h1 h2
    cases b with
    | nil => simp [lexLt] at h1
    | cons x xs =>
      cases c with
      | nil => simp [lexLt] at h2
      | cons y ys =>
        simp only [lexLt] at h1 h2 ⊢
        by_cases hax : a < x
        · by_cases hxy : x < y
          · simp [lt_trans hax hxy]
          · by_cases hyx : y < x
            · simp [hxy, hyx] at h2
            · have hxeq : x = y := le_antisymm (le_of_not_lt hyx) (le_of_not_lt hxy)
              subst hxeq
              simp [hax]
        · by_cases hxa : x < a
          · simp [hax, hxa] at h1
          · have haeq : a = x := le_antisymm (le_of_not_lt hxa) (le_of_not_lt hax)
            subst haeq
            simp [hax] at h1 ⊢
            by_cases hay : a < y
            · simp [hay]
            · by_cases hya : y < a
              · simp [hay, hya] at h2
              · have haeq : a = y := le_antisymm (le_of_not_lt hya) (le_of_not_lt hay)
                subst haeq
                simp [hay, hya] at h2 ⊢
                exact ih h1 h2

theorem lexLt_false_trans : ∀ {a b c : List Char},
    lexLt a b = false → lexLt b c = false → lexLt a c = false := by
  intro a
  induction a with
  | nil =>
    intro b c h1 h2
    cases b with
    | nil => cases c with
      | nil => rfl
      | cons y ys => simp [lexLt] at h2
    | cons x xs =>
      simp [lexLt] at h1
  | cons z zs ih =>
    intro b c h1 h2
    cases c with
    | nil => rfl
    | cons y ys =>
      cases b with
      | nil => simp [lexLt] at h2
      | cons x xs =>
        simp only [lexLt] at h1 h2 ⊢
        by_cases hzx : z < x
        · simp [hzx] at h1
        · by_cases hxy : x < y
          · simp [hxy] at h2
          · have hyz : y ≤ z := le_trans (le_of_not_lt hxy) (le_of_not_lt hzx)
            have hzy : ¬ z < y := not_lt_of_le hyz
            simp only [hzy, if_false]
            by_cases hyz2 : y < z
            · simp [hyz2]
            · simp only [hyz2, if_false]
              have hyeq : y = z := le_antisymm hyz (le_of_not_lt hyz2)
              subst hyeq
              have hxeq : x = y := le_antisymm (le_of_not_lt hzx) (le_of_not_lt hxy)
              subst hxeq
              simp only [lt_irrefl, if_false] at h1 h2
              exact ih h1 h2

theorem lexLt_asymm {a b : List Char} (h : lexLt a b = true) : lexLt b a = false := by
  by_cases h2 : lexLt b a = true
  · have h3 := lexLt_trans h h2
    rw [lexLt_irrefl] at h3
    exact absurd h3 (by simp)
  · simpa using h2

/-- One entry of a `hashes` list on a remote catalog record; `algo == 1`
marks SHA-1 in the catalog's scheme. -/
structure HashInfo where
  algo : Option Nat
  value : Option String
  deriving DecidableEq

/-- A remote catalog file record, embedding the Python dictionaries the code
reads with `.get`; `none` models an absent key (or JSON `null`). -/
structure FileRecord where
  id : Option Nat
  fileName : Option String
  displayName : Option String
  fileDate : Option String
  fileLength : Option Nat
  downloadUrl : Option String
  isServerPack : Option Bool
  serverPackFileId : Option Nat
  hashes : List HashInfo
  deriving DecidableEq

/-- `x.get("fileDate", "")` — the sort key used by both `get_latest_file`
implementations. -/
def dateKey (f : FileRecord) : String := f.fileDate.getD ""

/-- One step of Python `max(files, key=lambda x: x.get("fileDate", ""))`:
the running best is replaced only when the candidate's key is strictly
greater, so the first maximal element wins. -/
def maxStep (best x : FileRecord) : FileRecord :=
  if strLt (dateKey best) (dateKey x) then x else best

/-- Python `max(files, key=lambda x: x.get("fileDate", ""))`, `none` on an
empty list. -/
def pyMaxByDate : List FileRecord → Option FileRecord
  | [] => none
  | f :: fs => some (List.foldl maxStep f fs)

/-- `updater/utils.py::get_latest_file`: plain maximum by `fileDate`, no
server-pack handling. -/
def utils_get_latest_file (files : List FileRecord) : Option FileRecord :=
  pyMaxByDate files

/-- `poc.py::is_server_file`: `file_info.get("isServerPack", False)`. -/
def is_server_file (f : FileRecord) : Bool := f.isServerPack.getD false

/-- `poc.py::filter_server_files` (returns the server files, or `[]` when
there are none, which is the same list). -/
def filter_server_files (files : List FileRecord) : List FileRecord :=
  files.filter is_server_file

/-- `poc.py::get_latest_file(files, api_key, mod_id)` with `api_key` and
`mod_id` supplied; the network call `get_server_pack_file(api_key, mod_id, i)`
is abstracted as the resolver `resolve i` (`none` models a failed request).
The guard `if server_pack_file_id and api_key and mod_id` makes a
`serverPackFileId` of `0` falsy, hence the `n = 0` branch. -/
def poc_get_latest_file (files : List FileRecord)
    (resolve : Nat → Option FileRecord) : Option FileRecord :=
  match files with
  | [] => none
  | f :: fs =>
    match filter_server_files (f :: fs) with
    | sf :: sfs => some (List.foldl maxStep sf sfs)
    | [] =>
      let latest := List.foldl maxStep f fs
      match latest.serverPackFileId with
      | none => some latest
      | some n =>
        if n = 0 then some latest
        else
          match resolve n with
          | some r => some r
          | none => some latest

theorem foldl_maxStep_mem (fs : List FileRecord) (f : FileRecord) :
    List.foldl maxStep f fs = f ∨ List.foldl maxStep f fs ∈ fs := by
  induction fs generalizing f with
  | nil => exact Or.inl rfl
  | cons y ys ih =>
    rcases ih (maxStep f y) with h | h
    · rw [List.foldl_cons, h]
      unfold maxStep
      split
      · exact Or.inr (List.mem_cons_self y ys)
      · exact Or.inl rfl
    · exact Or.inr (List.mem_cons_of_mem y h)

theorem maxStep_not_lt_left (f y : FileRecord) :
    strLt (dateKey (maxStep f y)) (dateKey f) = false := by
  unfold maxStep
  split
  · next h => exact lexLt_asymm h
  · exact lexLt_irrefl _

theorem maxStep_not_lt_right (f y : FileRecord) :
    strLt (dateKey (maxStep f y)) (dateKey y) = false := by
  unfold maxStep
  split
  · exact lexLt_irrefl _
  · next h => simpa using h

theorem foldl_maxStep_not_lt_init (fs : List FileRecord) (f : FileRecord) :
    strLt (dateKey (List.foldl maxStep f fs)) (dateKey f) = false := by
  induction fs generalizing f with
  | nil => exact lexLt_irrefl _
  | cons y ys ih =>
    rw [List.foldl_cons]
    exact lexLt_false_trans (ih (maxStep f y)) (maxStep_not_lt_left f y)

theorem foldl_maxStep_not_lt (fs : List FileRecord) (f x : FileRecord) :
    (x = f ∨ x ∈ fs) → strLt (dateKey (List.foldl maxStep f fs)) (dateKey x) = false := by
  induction fs generalizing f with
  | nil =>
    intro hx
    rcases hx with rfl | h
    · exact lexLt_irrefl _
    · exact absurd h (List.not_mem_nil x)
  | cons y ys ih =>
    intro hx
    rw [List.foldl_cons]
    rcases hx with rfl | h
    · exact lexLt_false_trans (foldl_maxStep_not_lt_init ys (maxStep x y))
        (maxStep_not_lt_left x y)
    · rcases List.mem_cons.mp h with rfl | h2
      · exact lexLt_false_trans (foldl_maxStep_not_lt_init ys (maxStep f x))
          (maxStep_not_lt_right f x)
      · exact ih (maxStep f y) (Or.inr h2)

theorem pyMaxByDate_spec (files : List FileRecord) (g : FileRecord)
    (hg : pyMaxByDate files = some g) :
    g ∈ files ∧ ∀ x ∈ files, strLt (dateKey g) (dateKey x) = false := by
  cases files with
  | nil => simp [pyMaxByDate] at hg
  | cons f fs =>
    simp only [pyMaxByDate, Option.some.injEq] at hg
    subst hg
    constructor
    · rcases foldl_maxStep_mem fs f with h | h
      · rw [h]; exact List.mem_cons_self f fs
      · exact List.mem_cons_of_mem f h
    · intro x hx
      rcases List.mem_cons.mp hx with rfl | h
      · exact foldl_maxStep_not_lt fs x x (Or.inl rfl)
      · exact foldl_maxStep_not_lt fs f x (Or.inr h)

/-- Sample regular record of the spec's server-pack preference example:
`id 1`, `isServerPack false`, `fileDate "2024-01-02"`. -/
def c1regular : FileRecord :=
  { id := some 1, fileName := some "mod-client.jar", displayName := none,
    fileDate := some "2024-01-02", fileLength := some 100,
    downloadUrl := some "https://edge.example/1.jar", isServerPack := some false,
    serverPackFileId := none, hashes := [] }

/-- Sample server-pack record of the spec's example: `id 2`,
`isServerPack true`, `fileDate "2024-01-01"` (older than the regular one). -/
def c1server : FileRecord :=
  { id := some 2, fileName := some "mod-server.zip", displayName := none,
    fileDate := some "2024-01-01", fileLength := some 200,
    downloadUrl := some "https://edge.example/2.zip", isServerPack := some true,
    serverPackFileId := none, hashes := [] }

/-- C1 counterexample: on the spec's own example list, the updater-package
selection operation `updater/utils.py::get_latest_file` returns the newer
regular record (`isServerPack` false) although a server-pack record is
present, so the claim is false for that cited implementation. -/
theorem utils_selection_ignores_server_packs :
    utils_get_latest_file [c1regular, c1server] = some c1regular ∧
    is_server_file c1regular = false ∧ is_server_file c1server = true := by
  refine ⟨?_, rfl, rfl⟩
  rfl

/-- C1 (amended): the prototype selection operation
`poc.py::get_latest_file` does satisfy the claim: whenever the server-pack
sublist is non-empty (its Python `max` returns `g`), the selection returns
`g`, which is a server pack from the input list, and no server pack in the
input has a strictly later `fileDate`. -/
theorem poc_selection_prefers_latest_server_pack (files : List FileRecord)
    (resolve : Nat → Option FileRecord) (g : FileRecord)
    (hg : pyMaxByDate (filter_server_files files) = some g) :
    poc_get_latest_file files resolve = some g ∧
    is_server_file g = true ∧ g ∈ files ∧
    ∀ x ∈ files, is_server_file x = true → strLt (dateKey g) (dateKey x) = false := by
  obtain ⟨hmem, hmax⟩ := pyMaxByDate_spec _ g hg
  have hgf := List.mem_filter.mp hmem
  cases files with
  | nil => simp [filter_server_files, pyMaxByDate] at hg
  | cons f fs =>
    refine ⟨?_, hgf.2, hgf.1, ?_⟩
    · cases hsf : filter_server_files (f :: fs) with
      | nil => rw [hsf] at hg; simp [pyMaxByDate] at hg
      | cons sf sfs =>
        rw [hsf] at hg
        simp only [pyMaxByDate, Option.some.injEq] at hg
        simp [poc_get_latest_file, hsf, hg]
    · intro x hx hsx
      exact hmax x (List.mem_filter.mpr ⟨hx, hsx⟩)

/-- C1 witness: instantiating the amended theorem on the spec's example list
(regular record dated 2024-01-02, server pack dated 2024-01-01) with a
resolver that always fails. -/
theorem poc_selection_prefers_latest_server_pack_witness :
    poc_get_latest_file [c1regular, c1server] (fun _ => none) = some c1server ∧
    is_server_file c1server = true ∧ c1server ∈ [c1regular, c1server] ∧
    ∀ x ∈ [c1regular, c1server], is_server_file x = true →
      strLt (dateKey c1server) (dateKey x) = false :=
  poc_selection_prefers_latest_server_pack [c1regular, c1server] (fun _ => none)
    c1server (by rfl)

/-- C2: `poc.py::get_latest_file` when no record is a direct server pack:
with `L` the Python maximum of `files` by `fileDate` and
`L.serverPackFileId` a truthy id `n`, the selection returns the resolved
record when `resolve n` succeeds and falls back to `L` unchanged when the
resolver fails (returns nothing). -/
theorem poc_selection_resolution_fallback (files : List FileRecord)
    (resolve : Nat → Option FileRecord) (L : FileRecord) (n : Nat)
    (hnosrv : ∀ f ∈ files, is_server_file f = false)
    (hmax : pyMaxByDate files = some L)
    (hsp : L.serverPackFileId = some n) (hn : n ≠ 0) :
    poc_get_latest_file files resolve = some ((resolve n).getD L) := by
  cases files with
  | nil => simp [pyMaxByDate] at hmax
  | cons f fs =>
    have hfilter : filter_server_files (f :: fs) = [] := by
      simp only [filter_server_files]
      rw [List.filter_eq_nil_iff]
      intro a ha
      simp [hnosrv a ha]
    simp only [pyMaxByDate, Option.some.injEq] at hmax
    simp only [poc_get_latest_file, hfilter, hmax, hsp, hn, if_false]
    cases hr : resolve n <;> simp [Option.getD]

/-- Sample regular record for the resolver-fallback witness: the spec's
example of a single regular file whose `serverPackFileId` is `99`. -/
def c2regular : FileRecord :=
  { id := some 10, fileName := some "pack-client.zip", displayName := none,
    fileDate := some "2024-02-02", fileLength := some 300,
    downloadUrl := some "https://edge.example/10.zip", isServerPack := some false,
    serverPackFileId := some 99, hashes := [] }

/-- A resolver that always fails, modelling `get_server_pack_file`
returning `None` after a failed request. -/
def failingResolver : Nat → Option FileRecord := fun _ => none

/-- C2 witness: with one regular file carrying `serverPackFileId 99` and a
resolver that fails on every id, the selection returns the regular file
unchanged (`(failingResolver 99).getD c2regular` is `c2regular`). -/
theorem poc_selection_resolution_fallback_witness :
    poc_get_latest_file [c2regular] failingResolver =
      some ((failingResolver 99).getD c2regular) :=
  poc_selection_resolution_fallback [c2regular] failingResolver c2regular 99
    (by intro f hf; simp only [List.mem_singleton] at hf; subst hf; rfl)
    rfl rfl (by decide)

/-- C8: selection is deterministic: on equal input lists and pointwise-equal
resolvers, repeated invocations of both embedded selection operations return
identical results (both are pure functions of their inputs; ties at the
maximal `fileDate` are always broken toward the first maximal element). -/
theorem selection_deterministic (l1 l2 : List FileRecord)
    (r1 r2 : Nat → Option FileRecord)
    (hl : l1 = l2) (hr : ∀ n, r1 n = r2 n) :
    poc_get_latest_file l1 r1 = poc_get_latest_file l2 r2 ∧
    utils_get_latest_file l1 = utils_get_latest_file l2 := by
  subst hl
  have hfun : r1 = r2 := funext hr
  subst hfun
  exact ⟨rfl, rfl⟩

/-- C8 witness: instantiating determinism on a concrete two-element list and
a concrete resolver. -/
theorem selection_deterministic_witness :
    poc_get_latest_file [c1regular, c1server] failingResolver =
      poc_get_latest_file [c1regular, c1server] failingResolver ∧
    utils_get_latest_file [c1regular, c1server] =
      utils_get_latest_file [c1regular, c1server] :=
  selection_deterministic [c1regular, c1server] [c1regular, c1server]
    failingResolver failingResolver rfl (fun _ => rfl)

/-- One entry of the persisted sync-state store (the value stored under a
string file-id key by `record_download`); fields that the code may store as
`None` are `Option`-valued. -/
structure SyncRecord where
  fileName : Option String
  fileDate : Option String
  downloadedAt : String
  fileLength : Option Nat
  hash : Option String
  displayName : Option String
  deriving DecidableEq

/-- The in-memory sync-state mapping: string file-id keys to records, in
insertion order (a Python dict). -/
def SyncState : Type := List (String × SyncRecord)

/-- Python dict membership plus indexing: the value under a key, `none` when
the key is absent. -/
def sLookup : SyncState → String → Option SyncRecord
  | [], _ => none
  | (k, v) :: rest, key => if k = key then some v else sLookup rest key

/-- Python dict assignment `d[key] = v`: replaces the value under an existing
key in place, otherwise appends the new key at the end. -/
def dictSet : SyncState → String → SyncRecord → SyncState
  | [], key, v => [(key, v)]
  | (k, w) :: rest, key, v =>
    if k = key then (key, v) :: rest else (k, w) :: dictSet rest key v

theorem sLookup_dictSet_self (md : SyncState) (key : String) (v : SyncRecord) :
    sLookup (dictSet md key v) key = some v := by
  induction md with
  | nil => simp [dictSet, sLookup]
  | cons kv rest ih =>
    obtain ⟨k, w⟩ := kv
    by_cases h : k = key
    · simp [dictSet, sLookup, h]
    · simp [dictSet, sLookup, h, ih]

theorem sLookup_dictSet_ne (md : SyncState) (key k2 : String) (v : SyncRecord)
    (h : k2 ≠ key) : sLookup (dictSet md key v) k2 = sLookup md k2 := by
  induction md with
  | nil => simp [dictSet, sLookup, Ne.symm h]
  | cons kv rest ih =>
    obtain ⟨k, w⟩ := kv
    by_cases hk : k = key
    · subst hk
      simp [dictSet, sLookup, Ne.symm h]
    · simp only [dictSet, hk, if_false]
      by_cases hk2 : k = k2
      · simp [sLookup, hk2]
      · simp [sLookup, hk2, ih]

/-- Python `str(file_info.get("id"))`: `str(None)` is the string `"None"`. -/
def pyStr : Option Nat → String
  | none => "None"
  | some n => toString n

/-- The SHA-1 extraction loop shared by `is_download_needed` and
`record_download`: the `value` of the first hashes entry whose `algo` is `1`,
`none` when there is no such entry. -/
def extract_sha1 : List HashInfo → Option String
  | [] => none
  | h :: rest => if h.algo = some 1 then h.value else extract_sha1 rest

/-- State of the local artifact at one file name: absent, or present with the
result of `stat()` (`none` models an `OSError` on `stat`). -/
inductive FileState
  | absent
  | present (stat : Option Nat)
  deriving DecidableEq

/-- Python truthiness of an optional string: `None` and `""` are falsy. -/
def pyTruthyStr : Option String → Bool
  | none => false
  | some s => if s = "" then false else true

/-- Python f-string interpolation of a value that is a string or `None`. -/
def pyShow : Option String → String
  | none => "None"
  | some s => s

/-- `updater/utils.py::is_download_needed`: the ordered freshness checks.
`dir` maps a file name to the state of `download_path / name`; `metadata` is
the loaded store.  Returns the `(needs_download, reason)` pair with the
source's literal reason strings. -/
def is_download_needed (file_info : FileRecord) (dir : String → FileState)
    (metadata : SyncState) : Bool × String :=
  match file_info.fileName with
  | none => (true, "File info missing fileName")
  | some file_name =>
    if file_name = "" then (true, "File info missing fileName")
    else
      let file_id := pyStr file_info.id
      let file_length := file_info.fileLength.getD 0
      match dir file_name with
      | .absent => (true, "File not found locally")
      | .present stat =>
        match sLookup metadata file_id with
        | none => (true, "No metadata found for this file")
        | some local_metadata =>
          if local_metadata.fileDate ≠ file_info.fileDate then
            (true, "File updated (local: " ++ pyShow local_metadata.fileDate ++
              ", remote: " ++ pyShow file_info.fileDate ++ ")")
          else
            match stat with
            | none => (true, "Could not check local file size")
            | some local_size =>
              if local_size ≠ file_length then
                (true, "File size mismatch (local: " ++ toString local_size ++
                  ", remote: " ++ toString file_length ++ ")")
              else
                let remote_hash := extract_sha1 file_info.hashes
                if pyTruthyStr remote_hash && pyTruthyStr local_metadata.hash then
                  if local_metadata.hash ≠ remote_hash then
                    (true, "File hash mismatch")
                  else (false, "File is up to date")
                else (false, "File is up to date")

/-- C4: when the record has a non-empty `fileName` and the artifact is absent
from the download directory, the freshness check reports needs-download with
the not-present-locally reason, for every store `metadata` (the store is
never consulted on this path). -/
theorem is_download_needed_absent_artifact (file_info : FileRecord)
    (dir : String → FileState) (metadata : SyncState) (name : String)
    (hname : file_info.fileName = some name) (hne : name ≠ "")
    (habs : dir name = FileState.absent) :
    is_download_needed file_info dir metadata = (true, "File not found locally") := by
  simp [is_download_needed, hname, hne, habs]

/-- Sample record for the freshness witnesses: id 5, a SHA-1 entry, and a
well-formed name. -/
def c4file : FileRecord :=
  { id := some 5, fileName := some "mod.jar", displayName := some "Mod 5",
    fileDate := some "2024-03-03T10:00:00Z", fileLength := some 4096,
    downloadUrl := some "https://edge.example/5.jar", isServerPack := some false,
    serverPackFileId := none,
    hashes := [{ algo := some 2, value := some "md5md5" },
               { algo := some 1, value := some "aaaa1111" }] }

/-- A download directory with no files at all. -/
def emptyDir : String → FileState := fun _ => FileState.absent

/-- A store entry matching `c4file` except for its SHA-1 hash. -/
def c5record : SyncRecord :=
  { fileName := some "mod.jar", fileDate := some "2024-03-03T10:00:00Z",
    downloadedAt := "2024-03-04T00:00:00", fileLength := some 4096,
    hash := some "bbbb2222", displayName := some "Mod 5" }

/-- C4 witness: the absent-artifact case evaluated on a concrete record, an
empty directory and a non-empty store keyed by the record's own id. -/
theorem is_download_needed_absent_artifact_witness :
    is_download_needed c4file emptyDir [("5", c5record)] =
      (true, "File not found locally") :=
  is_download_needed_absent_artifact c4file emptyDir [("5", c5record)] "mod.jar"
    rfl (by decide) rfl

/-- C5: with the artifact present, a store record under the file's id, equal
`fileDate`s, a local size equal to the remote `fileLength`, a non-empty
SHA-1 value extracted from the remote hashes and a non-empty stored hash,
the freshness check reports hash-changed exactly when the two hashes differ,
and up-to-date when they are equal. -/
theorem is_download_needed_hash_check (file_info : FileRecord)
    (dir : String → FileState) (metadata : SyncState) (name : String)
    (r : SyncRecord) (sz : Nat) (rh sh : String)
    (hname : file_info.fileName = some name) (hne : name ≠ "")
    (hpres : dir name = FileState.present (some sz))
    (hrec : sLookup metadata (pyStr file_info.id) = some r)
    (hdate : r.fileDate = file_info.fileDate)
    (hsz : file_info.fileLength = some sz)
    (hrh : extract_sha1 file_info.hashes = some rh) (hrh2 : rh ≠ "")
    (hsh : r.hash = some sh) (hsh2 : sh ≠ "") :
    (sh ≠ rh →
      is_download_needed file_info dir metadata = (true, "File hash mismatch")) ∧
    (sh = rh →
      is_download_needed file_info dir metadata = (false, "File is up to date")) := by
  constructor
  · intro hneq
    have hne2 : ¬ (some sh = some rh) := by simpa using hneq
    simp [is_download_needed, hname, hne, hpres, hrec, hdate, hsz, hrh, hrh2,
      hsh, hsh2, pyTruthyStr, hne2]
  · intro heq
    subst heq
    simp [is_download_needed, hname, hne, hpres, hrec, hdate, hsz, hrh, hrh2,
      hsh, hsh2, pyTruthyStr]

/-- C5 witness: on a concrete record whose remote SHA-1 differs from the
stored one while date and size agree, the check reports hash-changed. -/
theorem is_download_needed_hash_check_witness :
    is_download_needed c4file (fun _ => FileState.present (some 4096))
      [("5", c5record)] = (true, "File hash mismatch") :=
  (is_download_needed_hash_check c4file (fun _ => FileState.present (some 4096))
    [("5", c5record)] "mod.jar" c5record 4096 "aaaa1111" "bbbb2222"
    rfl (by decide) rfl rfl rfl rfl rfl (by decide) rfl (by decide)).1 (by decide)

/-- Outcome of the streamed HTTP transfer inside
`updater/downloader.py::download_file`: a successful stream of chunks, a
failure before the artifact file is opened (`requests.get` or
`raise_for_status` raising), or a transport/storage failure after some
chunks were already written to the open file. -/
inductive Transfer
  | ok (chunks : List (List Nat))
  | failEarly
  | failMid (written : List (List Nat))

/-- Contents of the download directory: file name to optional byte contents. -/
def DirFS : Type := String → Option (List Nat)

/-- The cleanup `if file_path.exists(): file_path.unlink()` in the except
handlers. -/
def fsRemove (fs : DirFS) (name : String) : DirFS :=
  fun k => if k = name then none else fs k

/-- Writing the streamed chunks to `file_path` (opened with mode `wb`, so
any previous contents are replaced). -/
def fsWrite (fs : DirFS) (name : String) (content : List Nat) : DirFS :=
  fun k => if k = name then some content else fs k

/-- `updater/downloader.py::download_file`: returns the success flag and the
resulting directory contents; `none` models the uncaught `TypeError` from
`download_path / None` when the record has no `fileName` (that join happens
before the `try` block).  A missing or empty `downloadUrl` fails immediately
with the directory untouched; both failure outcomes of the transfer unlink
whatever is at the target path before returning `False`. -/
def download_file (file_info : FileRecord) (t : Transfer) (fs : DirFS) :
    Option (Bool × DirFS) :=
  match file_info.downloadUrl with
  | none => some (false, fs)
  | some url =>
    if url = "" then some (false, fs)
    else
      match file_info.fileName with
      | none => none
      | some file_name =>
        match t with
        | .ok chunks => some (true, fsWrite fs file_name chunks.flatten)
        | .failEarly => some (false, fsRemove fs file_name)
        | .failMid _ => some (false, fsRemove fs file_name)

/-- C3: for a record with a download URL and a file name, a mid-stream
transport or storage failure makes `download_file` report failure, and the
resulting directory holds no artifact under the record's file name (the
partial file has been unlinked). -/
theorem download_file_failure_removes_artifact (file_info : FileRecord)
    (fs : DirFS) (written : List (List Nat)) (url name : String)
    (hurl : file_info.downloadUrl = some url) (hurl2 : url ≠ "")
    (hname : file_info.fileName = some name) :
    download_file file_info (Transfer.failMid written) fs =
      some (false, fsRemove fs name) ∧
    fsRemove fs name name = none := by
  constructor
  · simp [download_file, hurl, hurl2, hname]
  · simp [fsRemove]

/-- A directory that already holds a stale artifact under the sample
record's file name. -/
def c3dir : DirFS := fun k => if k = "mod.jar" then some [1, 2, 3] else none

/-- C3 witness: a concrete mid-stream failure on `c4file` leaves no file
under `mod.jar` and reports failure. -/
theorem download_file_failure_removes_artifact_witness :
    download_file c4file (Transfer.failMid [[7, 7]]) c3dir =
      some (false, fsRemove c3dir "mod.jar") ∧
    fsRemove c3dir "mod.jar" "mod.jar" = none :=
  download_file_failure_removes_artifact c4file c3dir [[7, 7]]
    "https://edge.example/5.jar" "mod.jar" rfl (by decide) rfl

/-- The JSON values this program reads and writes in its metadata document
(numbers are the natural sizes it stores). -/
inductive JValue
  | null
  | bool (b : Bool)
  | num (n : Nat)
  | str (s : String)
  | obj (fields : List (String × JValue))

/-- The metadata document on disk: missing, present but not parseable as
JSON, or a parsed JSON value. -/
inductive StoreDoc
  | missing
  | corrupt
  | doc (j : JValue)

/-- `updater/downloader.py::load_metadata`: a missing file and a
`json.JSONDecodeError`/`IOError` both yield the empty mapping (the latter
with a warning printed); otherwise the parsed document is returned. -/
def load_metadata : StoreDoc → JValue
  | .missing => .obj []
  | .corrupt => .obj []
  | .doc j => j

/-- `poc.py::load_download_metadata`: a missing file yields the empty
mapping, but the `json.load` call is not guarded, so an unparseable document
raises (`none`). -/
def poc_load_download_metadata : StoreDoc → Option JValue
  | .missing => some (.obj [])
  | .corrupt => none
  | .doc j => some j

/-- JSON encoding of an optional string field (`None` becomes `null`). -/
def encodeOptStr : Option String → JValue
  | none => .null
  | some s => .str s

/-- JSON encoding of an optional size field (`None` becomes `null`). -/
def encodeOptNat : Option Nat → JValue
  | none => .null
  | some n => .num n

/-- The JSON object `record_download` stores for one sync record, with the
field order of the dict literal in `updater/downloader.py`. -/
def encodeRecord (r : SyncRecord) : JValue :=
  .obj [("fileName", encodeOptStr r.fileName),
        ("fileDate", encodeOptStr r.fileDate),
        ("downloadedAt", .str r.downloadedAt),
        ("fileLength", encodeOptNat r.fileLength),
        ("hash", encodeOptStr r.hash),
        ("displayName", encodeOptStr r.displayName)]

/-- The JSON document `save_metadata` writes for a whole mapping. -/
def encodeState (md : SyncState) : JValue :=
  .obj (md.map (fun kv => (kv.1, encodeRecord kv.2)))

/-- `updater/downloader.py::save_metadata`: `json.dump` of the mapping. -/
def save_metadata (metadata : SyncState) : StoreDoc :=
  .doc (encodeState metadata)

/-- Reading an optional string field back from its JSON encoding. -/
def decodeOptStr : JValue → Option (Option String)
  | .null => some none
  | .str s => some (some s)
  | _ => none

/-- Reading an optional size field back from its JSON encoding. -/
def decodeOptNat : JValue → Option (Option Nat)
  | .null => some none
  | .num n => some (some n)
  | _ => none

/-- Reading one stored record back, field for field; `none` when the JSON
value does not have the representable record shape. -/
def decodeRecord : JValue → Option SyncRecord
  | .obj [("fileName", v1), ("fileDate", v2), ("downloadedAt", v3),
          ("fileLength", v4), ("hash", v5), ("displayName", v6)] =>
    match decodeOptStr v1, decodeOptStr v2, v3, decodeOptNat v4,
        decodeOptStr v5, decodeOptStr v6 with
    | some a, some b, .str c, some d, some e, some f =>
      some { fileName := a, fileDate := b, downloadedAt := c,
             fileLength := d, hash := e, displayName := f }
    | _, _, _, _, _, _ => none
  | _ => none

/-- Reading a whole stored mapping back, entry by entry. -/
def decodeEntries : List (String × JValue) → Option SyncState
  | [] => some []
  | (k, v) :: rest =>
    match decodeRecord v, decodeEntries rest with
    | some r, some rs => some ((k, r) :: rs)
    | _, _ => none

/-- Reading a stored mapping back from a JSON document. -/
def decodeState : JValue → Option SyncState
  | .obj entries => decodeEntries entries
  | _ => none

/-- C6 counterexample: the prototype loader `poc.py::load_download_metadata`
raises on an unparseable document instead of returning the empty mapping, so
the claim is false for that cited implementation. -/
theorem poc_load_metadata_corrupt_raises :
    poc_load_download_metadata StoreDoc.corrupt = none ∧
    poc_load_download_metadata StoreDoc.corrupt ≠ some (JValue.obj []) :=
  ⟨rfl, by simp [poc_load_download_metadata]⟩

/-- C6 (amended): the updater-package loader
`updater/downloader.py::load_metadata` returns the empty mapping without
raising both when the document is missing and when it is unparseable; the
prototype loader does so only for a missing document. -/
theorem load_metadata_missing_or_corrupt_empty :
    load_metadata StoreDoc.missing = JValue.obj [] ∧
    load_metadata StoreDoc.corrupt = JValue.obj [] ∧
    poc_load_download_metadata StoreDoc.missing = some (JValue.obj []) :=
  ⟨rfl, rfl, rfl⟩

theorem decodeRecord_encodeRecord (r : SyncRecord) :
    decodeRecord (encodeRecord r) = some r := by
  obtain ⟨fn, fd, da, fl, h, dn⟩ := r
  cases fn <;> cases fd <;> cases fl <;> cases h <;> cases dn <;> rfl

/-- C7: saving any representable sync-state mapping with `save_metadata` and
loading it back with `load_metadata` yields a document that decodes,
field for field, to exactly the mapping that was saved — including entries
whose `hash` is `null`. -/
theorem metadata_save_load_roundtrip (md : SyncState) :
    decodeState (load_metadata (save_metadata md)) = some md := by
  show decodeState (encodeState md) = some md
  induction md with
  | nil => rfl
  | cons kv rest ih =>
    simp only [encodeState, decodeState, List.map_cons, decodeEntries,
      decodeRecord_encodeRecord] at ih ⊢
    rw [ih]

/-- Digit run of a Python integer literal, with single underscores allowed
only between digits; accumulates the value. -/
def digitsVal : List Char → Nat → Option Nat
  | [], acc => some acc
  | c :: cs, acc =>
    if c.isDigit then digitsVal cs (acc * 10 + (c.toNat - 48))
    else if c = '_' then
      match cs with
      | [] => none
      | d :: _ => if d.isDigit then digitsVal cs acc else none
    else none

/-- A non-empty digit run (must start with a digit). -/
def parseUnsigned : List Char → Option Nat
  | [] => none
  | c :: cs => if c.isDigit then digitsVal cs (c.toNat - 48) else none

/-- Python `int(s)` for a string argument: optional surrounding whitespace,
an optional sign, then a digit run with underscore separators; `none` models
the `ValueError` raised on anything else. -/
def pyIntOfString (s : String) : Option Int :=
  let cs := (s.data.dropWhile Char.isWhitespace).reverse.dropWhile
    Char.isWhitespace |>.reverse
  match cs with
  | '+' :: rest => (parseUnsigned rest).map (fun n => (n : Int))
  | '-' :: rest => (parseUnsigned rest).map (fun n => -(n : Int))
  | rest => (parseUnsigned rest).map (fun n => (n : Int))

/-- `updater/utils.py::validate_mod_id` on a string argument: `int(mod_id)`,
with the `ValueError` branch re-raised as the error message. -/
def validate_mod_id (mod_id : String) : Except String Int :=
  match pyIntOfString mod_id with
  | some n => Except.ok n
  | none => Except.error ("Invalid mod ID: " ++ mod_id ++ ". Must be a number.")

/-- The mod-id validation step of `updater/config.py::get_config`:
`str(int(mod_id))`, with `none` modelling `sys.exit(1)` on `ValueError`. -/
def getConfig_mod_id (mod_id : String) : Option String :=
  match pyIntOfString mod_id with
  | some n => some (toString n)
  | none => none

/-- Success of the embedded `validate_mod_id`. -/
def exceptAccepts : Except String Int → Bool
  | .ok _ => true
  | .error _ => false

/-- The claim's acceptance condition: the string parses as an integer that
is strictly positive. -/
def parsesAsPosInt (s : String) : Prop :=
  ∃ n, pyIntOfString s = some n ∧ 0 < n

/-- C9 counterexample: `validate_mod_id "0"` succeeds although `"0"` does not
parse as a positive integer, so validation does not reject non-positive mod
ids as the claim states. -/
theorem validate_mod_id_accepts_zero :
    exceptAccepts (validate_mod_id "0") = true ∧ ¬ parsesAsPosInt "0" := by
  constructor
  · rfl
  · rintro ⟨n, h1, h2⟩
    have h0 : pyIntOfString "0" = some 0 := rfl
    rw [h0] at h1
    cases h1
    exact lt_irrefl 0 h2

/-- C9 (amended): mod-id validation accepts exactly the strings that parse
as an integer of any sign (including zero and negatives): `validate_mod_id`
succeeds, and the `get_config` validation step passes, if and only if
Python `int()` parses the string; positivity is not checked anywhere. -/
theorem validate_mod_id_accepts_any_integer (s : String) :
    exceptAccepts (validate_mod_id s) = (pyIntOfString s).isSome ∧
    (getConfig_mod_id s).isSome = (pyIntOfString s).isSome := by
  cases h : pyIntOfString s <;>
    simp [validate_mod_id, getConfig_mod_id, exceptAccepts, h]

/-- The record `updater/downloader.py::record_download` stores for a file:
all fields copied from the remote record, the extracted SHA-1 (the value of
the first `algo == 1` hashes entry, `None` when there is none), and the
wall-clock timestamp `now` (`datetime.now().isoformat()`). -/
def mkSyncRecord (file_info : FileRecord) (now : String) : SyncRecord :=
  { fileName := file_info.fileName
    fileDate := file_info.fileDate
    downloadedAt := now
    fileLength := file_info.fileLength
    hash := extract_sha1 file_info.hashes
    displayName := file_info.displayName }

/-- `updater/downloader.py::record_download`: stores the record built from
`file_info` under the string form of its id, then rewrites the whole
document via `save_metadata`; returns the updated mapping and the document
written. -/
def record_download (file_info : FileRecord) (now : String)
    (metadata : SyncState) : SyncState × StoreDoc :=
  let md := dictSet metadata (pyStr file_info.id) (mkSyncRecord file_info now)
  (md, save_metadata md)

/-- C10: `record_download` updates exactly the entry keyed by the string
form of the record's id — its `fileName`, `fileDate`, `fileLength` and
`displayName` are copied from the record and its `hash` is the record's
extracted SHA-1 entry (or null when there is none) — and the value stored
under every other key is unchanged. -/
theorem record_download_frame (file_info : FileRecord) (now : String)
    (metadata : SyncState) :
    sLookup (record_download file_info now metadata).1 (pyStr file_info.id) =
      some (mkSyncRecord file_info now) ∧
    (mkSyncRecord file_info now).fileName = file_info.fileName ∧
    (mkSyncRecord file_info now).fileDate = file_info.fileDate ∧
    (mkSyncRecord file_info now).fileLength = file_info.fileLength ∧
    (mkSyncRecord file_info now).displayName = file_info.displayName ∧
    (mkSyncRecord file_info now).hash = extract_sha1 file_info.hashes ∧
    ∀ k, k ≠ pyStr file_info.id →
      sLookup (record_download file_info now metadata).1 k = sLookup metadata k := by
  refine ⟨?_, rfl, rfl, rfl, rfl, rfl, ?_⟩
  · exact sLookup_dictSet_self metadata (pyStr file_info.id) (mkSyncRecord file_info now)
  · intro k hk
    exact sLookup_dictSet_ne metadata (pyStr file_info.id) k
      (mkSyncRecord file_info now) hk

/-- A store holding two unrelated entries, to exercise the frame property. -/
def c10store : SyncState := [("7", c5record), ("5", c5record)]

/-- C10 witness: recording `c4file` (id 5) into a store that also holds an
entry under key `"7"` leaves the `"7"` entry untouched. -/
theorem record_download_frame_witness :
    sLookup (record_download c4file "2024-03-04T00:00:00" c10store).1 "7" =
      sLookup c10store "7" :=
  (record_download_frame c4file "2024-03-04T00:00:00" c10store).2.2.2.2.2.2 "7"
    (by decide)
